import Mathlib

/-!
# cclank: manifest loading, build-command synthesis and the subcommands

A shallow embedding of `src/main.cpp`.  `std::string` is `String` (a list of
characters), `int` is `Int` with the 32-bit range checked where `std::stoi`
checks it, `std::string::npos` is `none`, and a C++ exception that nothing
catches is the `Except.error` result.  `buildCommand` takes the filesystem
query `fileExists : String → Bool` as a parameter; the subcommands run over an
`OS` record of filesystem and process operations on an explicit state, and
return the trace of what they print and which commands they pass to `system`.
-/

namespace Cclank

/-! ## Data model (`struct TomlConfig`, lines 13-29) -/

/-- The nested `TomlConfig::Profile` with its member initialisers. -/
structure Profile where
  optLevel : Int := 0
  debug : Bool := true
  codegenUnits : Int := 1
  lto : String := "off"
deriving DecidableEq, Repr

/-- The `TomlConfig` struct with its member initialisers. -/
structure TomlConfig where
  name : String := "unnamed_project"
  version : String := "0.1.0"
  platform : String := "win"
  type : String := "bin"
  icon : String := "icon.ico"
  dev : Profile := {}
  release : Profile := {}
deriving DecidableEq, Repr

/-! ## String helpers (lines 57-78) -/

/-- Membership in the character set `" \t\r\n"` used by `trim`. -/
def isTrimChar (c : Char) : Bool :=
  c == ' ' || c == '\t' || c == '\r' || c == '\n'

/-- The call `str.find_first_not_of(" \t\r\n")`; `none` is `npos`. -/
def findFirstNotOf : List Char → Option Nat
  | [] => none
  | c :: cs => if isTrimChar c then (findFirstNotOf cs).map (· + 1) else some 0

/-- The call `str.find_last_not_of(" \t\r\n")`; `none` is `npos`. -/
def findLastNotOf : List Char → Option Nat
  | [] => none
  | c :: cs =>
    match findLastNotOf cs with
    | some i => some (i + 1)
    | none => if isTrimChar c then none else some 0

/-- The call `str.find(ch)`: index of the first occurrence; `none` is `npos`. -/
def find (ch : Char) : List Char → Option Nat
  | [] => none
  | c :: cs => if c = ch then some 0 else (find ch cs).map (· + 1)

/-- The call `str.substr(pos, len)` for `pos ≤ str.size()` (every call site
satisfies this, so the `out_of_range` throw of `substr` is never taken). -/
def substr (s : String) (pos len : Nat) : String :=
  ⟨(s.data.drop pos).take len⟩

/-- The call `str.substr(pos)`: the rest of the string from `pos`. -/
def substrFrom (s : String) (pos : Nat) : String :=
  ⟨s.data.drop pos⟩

/-- `trim` (lines 57-62). -/
def trim (str : String) : String :=
  match findFirstNotOf str.data with
  | none => ""
  | some first =>
    match findLastNotOf str.data with
    | some last => substr str first (last - first + 1)
    -- not reachable: a string with a first non-blank has a last one; with
    -- `last = npos` the unsigned count wraps and `substr` runs to the end
    | none => substrFrom str first

/-- The double-quote character. -/
def dquote : Char := Char.ofNat 34

/-- `removeQuotes` (lines 64-70). -/
def removeQuotes (str : String) : String :=
  let result := trim str
  if result.data.length ≥ 2 ∧ result.data.head? = some dquote
      ∧ result.data.getLast? = some dquote then
    substr result 1 (result.data.length - 2)
  else result

/-- `removeComments` (lines 72-78). -/
def removeComments (line : String) : String :=
  match find '#' line.data with
  | some commentPos => substr line 0 commentPos
  | none => line

/-! ## `getOutputFilename` (lines 151-166) -/

/-- `getOutputFilename` (lines 151-166). -/
def getOutputFilename (name type platform : String) : String :=
  if type = "bin" then
    if platform = "win" then name ++ ".exe"
    else name
  else if type = "lib" then
    if platform = "win" then name ++ ".lib"
    else "lib" ++ name ++ ".a"
  else if type = "dylib" ∨ type = "dll" ∨ type = "so" then
    if platform = "win" then name ++ ".dll"
    else if platform = "mac" then "lib" ++ name ++ ".dylib"
    else "lib" ++ name ++ ".so"
  else name ++ ".exe"

/-! ## `std::stoi` (library function used at lines 132-141) -/

/-- The two exceptions `std::stoi` throws.  Nothing in the program catches
them, so a throw ends the process without a model. -/
inductive StoiError where
  | invalid_argument
  | out_of_range
deriving DecidableEq, Repr

/-- The C `isspace` set that `strtol` skips before the number. -/
def isSpace (c : Char) : Bool :=
  c == ' ' || c == '\t' || c == '\n' || c == Char.ofNat 11 || c == Char.ofNat 12 || c == '\r'

/-- Decimal digits. -/
def isDigit (c : Char) : Bool := decide ('0' ≤ c) && decide (c ≤ '9')

/-- Value of a run of decimal digits. -/
def digitsValue (ds : List Char) : Nat :=
  ds.foldl (fun acc c => 10 * acc + (c.toNat - 48)) 0

/-- `std::stoi(str)` with base 10: skip leading white space, read an optional
sign and the longest run of digits, ignore whatever follows; throw
`invalid_argument` when there is no digit and `out_of_range` when the value
does not fit a 32-bit `int`. -/
def stoi (str : String) : Except StoiError Int :=
  let rest := str.data.dropWhile isSpace
  let signed : Bool × List Char :=
    match rest with
    | '-' :: t => (true, t)
    | '+' :: t => (false, t)
    | _ => (false, rest)
  let ds := signed.2.takeWhile isDigit
  if ds = [] then Except.error StoiError.invalid_argument
  else
    let v : Int := if signed.1 then - (digitsValue ds : Int) else (digitsValue ds : Int)
    if v < -2147483648 ∨ 2147483647 < v then Except.error StoiError.out_of_range
    else Except.ok v

/-! ## `parseToml` (lines 80-149) -/

/-- The loop state of `parseToml`: `currentSection` and `config`. -/
structure ParseState where
  currentSection : String
  config : TomlConfig
deriving DecidableEq, Repr

/-- The key dispatch of `parseToml` (lines 122-143) for one `key`, `value`. -/
def assign (currentSection key value : String) (config : TomlConfig) :
    Except StoiError TomlConfig :=
  if currentSection = "package" then
    if key = "name" then Except.ok { config with name := value }
    else if key = "version" then Except.ok { config with version := value }
    else if key = "platform" then Except.ok { config with platform := value }
    else if key = "type" then Except.ok { config with type := value }
    else if key = "icon" then Except.ok { config with icon := value }
    else Except.ok config
  else if currentSection = "profile.dev" then
    if key = "opt-level" then
      (stoi value).map fun n => { config with dev := { config.dev with optLevel := n } }
    else if key = "debug" then
      Except.ok { config with dev := { config.dev with debug := decide (value = "true") } }
    else if key = "codegen-units" then
      (stoi value).map fun n => { config with dev := { config.dev with codegenUnits := n } }
    else if key = "lto" then
      Except.ok { config with dev := { config.dev with lto := value } }
    else Except.ok config
  else if currentSection = "profile.release" then
    if key = "opt-level" then
      (stoi value).map fun n => { config with release := { config.release with optLevel := n } }
    else if key = "debug" then
      Except.ok { config with release := { config.release with debug := decide (value = "true") } }
    else if key = "codegen-units" then
      (stoi value).map fun n =>
        { config with release := { config.release with codegenUnits := n } }
    else if key = "lto" then
      Except.ok { config with release := { config.release with lto := value } }
    else Except.ok config
  else Except.ok config

/-- The key and value that lines 116-120 read from the trimmed, comment-free
`line`: `none` when `line.find('=')` is `npos`. -/
def keyValue (line : String) : Option (String × String) :=
  match find '=' line.data with
  | none => none
  | some eqPos =>
    some (trim (substr line 0 eqPos), removeQuotes (trim (substrFrom line (eqPos + 1))))

/-- One iteration of the `while (std::getline(file, line))` loop (lines 103-145). -/
def processLine (st : ParseState) (rawLine : String) : Except StoiError ParseState :=
  let line := trim (removeComments rawLine)
  if line.data = [] then Except.ok st
  else if line.data.head? = some '[' ∧ line.data.getLast? = some ']' then
    Except.ok { st with currentSection := substr line 1 (line.data.length - 2) }
  else
    match keyValue line with
    | none => Except.ok st
    | some (key, value) =>
      (assign st.currentSection key value st.config).map fun c => { st with config := c }

/-- The loop over the lines that `std::getline` yields, stopping at a throw. -/
def parseLines : ParseState → List String → Except StoiError ParseState
  | st, [] => Except.ok st
  | st, l :: ls =>
    match processLine st l with
    | Except.ok st1 => parseLines st1 ls
    | Except.error e => Except.error e

/-- The `config` of `parseToml` after the "Set defaults" block (lines 81-92). -/
def initialConfig : TomlConfig :=
  let config : TomlConfig := {}
  let config := { config with dev := { config.dev with optLevel := 0 } }
  let config := { config with dev := { config.dev with debug := true } }
  let config := { config with dev := { config.dev with codegenUnits := 4 } }
  let config := { config with dev := { config.dev with lto := "off" } }
  let config := { config with release := { config.release with optLevel := 3 } }
  let config := { config with release := { config.release with debug := false } }
  let config := { config with release := { config.release with codegenUnits := 1 } }
  let config := { config with release := { config.release with lto := "fat" } }
  config

/-- `parseToml` (lines 80-149).  The argument is what opening the file gives:
`none` when it cannot be opened, else its lines.  The result is the returned
model and the lines written to `std::cerr`, or the uncaught exception. -/
def parseToml (file : Option (List String)) : Except StoiError (TomlConfig × List String) :=
  match file with
  | none => Except.ok (initialConfig, ["Warning: Could not open cclank.toml, using defaults"])
  | some lines =>
    match parseLines ⟨"", initialConfig⟩ lines with
    | Except.ok st => Except.ok (st.config, [])
    | Except.error e => Except.error e

/-! ## `buildCommand` (lines 186-248) -/

/-- `buildCommand` (lines 186-248); `fileExists` is the filesystem query of
lines 52-55. -/
def buildCommand (fileExists : String → Bool) (config : TomlConfig) (isRelease : Bool)
    (sourceFiles : List String) : String :=
  let profile := if isRelease then config.release else config.dev
  let profileName := if isRelease then "release" else "debug"
  let cmd := "g++"
  let cmd :=
    if profile.optLevel = 0 then cmd ++ " -O0"
    else if profile.optLevel = 1 then cmd ++ " -O1"
    else if profile.optLevel = 2 then cmd ++ " -O2"
    else if profile.optLevel = 3 then cmd ++ " -O3"
    else cmd
  let cmd := if profile.debug then cmd ++ " -g" else cmd
  let cmd := if profile.lto = "fat" then cmd ++ " -flto" else cmd
  let cmd := if config.type = "lib" then cmd ++ " -c" else cmd
  let cmd :=
    if config.type = "dylib" ∨ config.type = "dll" ∨ config.type = "so" then
      let cmd := cmd ++ " -shared"
      if config.platform ≠ "win" then cmd ++ " -fPIC" else cmd
    else cmd
  let cmd := sourceFiles.foldl (fun acc file => acc ++ (" " ++ file)) cmd
  let cmd :=
    if config.platform = "win" ∧ config.type = "bin" ∧ fileExists "icon.ico" = true then
      cmd ++ " resource.o"
    else cmd
  let outputFilename := getOutputFilename config.name config.type config.platform
  let cmd :=
    if config.type = "lib" then cmd ++ (" -o build/" ++ profileName ++ "/")
    else cmd ++ (" -o build/" ++ profileName ++ "/" ++ outputFilename)
  let cmd :=
    if config.platform = "win" ∧ config.type = "bin" then cmd ++ " -static -lshlwapi"
    else cmd
  cmd

/-- The condition under which `buildProject` writes `resource.rc` and runs
`windres` to produce `resource.o` (line 433). -/
def resourceStepRuns (fileExists : String → Bool) (config : TomlConfig) : Bool :=
  decide (config.type = "bin") && decide (config.platform = "win") && fileExists config.icon

/-! ## The operating system and the observable trace -/

/-- The build host: which branch of `getHostPlatform` the preprocessor keeps. -/
inductive Host where
  | windows
  | linux
  | apple
  | other
deriving DecidableEq, Repr

/-- `getHostPlatform` (lines 31-41). -/
def getHostPlatform : Host → String
  | Host.windows => "win"
  | Host.linux => "lin"
  | Host.apple => "mac"
  | Host.other => "unknown"

/-- What the program does that can be observed: a line on `std::cout`, a line
on `std::cerr`, a call of `system`. -/
inductive Event where
  | out (line : String)
  | err (line : String)
  | system (cmd : String)
deriving DecidableEq, Repr

/-- The host filesystem and process API over a state `W`: attribute queries
(lines 43-55), directory listing (lines 170-180), opening a file for reading
and for writing, `DeleteFileA`, `system`, and the embedded icon resource
(`none`: `FindResource` fails, `some none`: `LoadResource` fails). -/
structure OS (W : Type) where
  fileExists : W → String → Bool
  directoryExists : W → String → Bool
  createDirectory : W → String → Bool × W
  findFiles : W → String → List (String × Bool)
  readLines : W → String → Option (List String)
  writeFile : W → String → String → Bool × W
  deleteFile : W → String → W
  system : W → String → Int × W
  iconResource : Option (Option String)

/-- `findCppFiles` (lines 168-184): the entries matching `directory\*.cpp`
that are not directories, each prefixed with the directory. -/
def findCppFiles {W : Type} (os : OS W) (w : W) (directory : String) : List String :=
  ((os.findFiles w (directory ++ "\\*.cpp")).filter fun e => !e.2).map
    fun e => directory ++ "\\" ++ e.1

/-- The call `str.find_last_of(set)`: index of the last character that is in
`set`; `none` is `npos`. -/
def findLastOf (set : List Char) : List Char → Option Nat
  | [] => none
  | c :: cs =>
    match findLastOf set cs with
    | some i => some (i + 1)
    | none => if set.contains c then some 0 else none

/-! ## `buildProject` (lines 373-522) -/

/-- The file name of a source path, without its directories (lines 460-461). -/
def sourceFileName (srcFile : String) : String :=
  match findLastOf ['\\', '/'] srcFile.data with
  | some lastSlash => substrFrom srcFile (lastSlash + 1)
  | none => srcFile

/-- The object file name of a source path (line 462); `substr(0, npos)` is the
whole name. -/
def objectName (srcFile : String) : String :=
  let filename := sourceFileName srcFile
  (match findLastOf ['.'] filename.data with
    | some dot => substr filename 0 dot
    | none => filename) ++ ".o"

/-- The cross-compilation warning or note (lines 388-409). -/
def crossCompileMessages (config : TomlConfig) (hostPlatform : String) : List Event :=
  if config.platform ≠ hostPlatform then
    if config.type = "bin" then
      [Event.err "\nWarning: Cross-compilation is not available for binaries!",
       Event.err ("Project platform: " ++ config.platform),
       Event.err ("Host platform: " ++ hostPlatform),
       Event.err ("The resulting binary will only run on " ++ hostPlatform ++ ", not "
         ++ config.platform),
       Event.err ("To build for " ++ config.platform ++ ", use a " ++ config.platform
         ++ " system.\n")]
    else if config.type = "dylib" ∨ config.type = "dll" ∨ config.type = "so" then
      [Event.err "\nWarning: Cross-compilation is not available for dynamic libraries!",
       Event.err ("Project platform: " ++ config.platform),
       Event.err ("Host platform: " ++ hostPlatform),
       Event.err ("The resulting library will only work on " ++ hostPlatform ++ ", not "
         ++ config.platform),
       Event.err ("To build for " ++ config.platform ++ ", use a " ++ config.platform
         ++ " system.\n")]
    else if config.type = "lib" then
      [Event.out ("\nNote: Building static library with platform set to " ++ config.platform),
       Event.out "Static libraries (.a, .lib) may be platform-specific depending on code.",
       Event.out "For true cross-platform compatibility, build on the target platform.\n"]
    else []
  else []

/-- The icon resource step (lines 432-448). -/
def compileResource {W : Type} (os : OS W) (config : TomlConfig) (w : W) : W × List Event :=
  if config.type = "bin" ∧ config.platform = "win" ∧ os.fileExists w config.icon = true then
    let w1 := (os.writeFile w "resource.rc"
      ("#include <windows.h>\nIDI_ICON1 ICON \"" ++ config.icon ++ "\"\n")).2
    let rcCmd := "windres resource.rc -O coff -o resource.o"
    let r := os.system w1 rcCmd
    (r.2, [Event.out "Compiling icon resource...", Event.system rcCmd]
      ++ (if r.1 ≠ 0 then [Event.err "Warning: Icon resource compilation failed"] else []))
  else (w, [])

/-- The per-source compile loop of a static library (lines 458-476): the end
state, the object files pushed, `compileFailed`, and the trace. -/
def compileLoop {W : Type} (os : OS W) (config : TomlConfig) (isRelease : Bool)
    (buildPath : String) : List String → W → W × List String × Bool × List Event
  | [], w => (w, [], false, [])
  | srcFile :: rest, w =>
    let filename := sourceFileName srcFile
    let objName := objectName srcFile
    let objPath := buildPath ++ "/" ++ objName
    let compileCmd := buildCommand (os.fileExists w) config isRelease [srcFile] ++ objName
    let r := os.system w compileCmd
    if r.1 ≠ 0 then
      (r.2, [], true,
        [Event.out ("  Compiling " ++ filename ++ "..."), Event.system compileCmd,
         Event.err ("Error: Compilation failed for " ++ filename)])
    else
      let next := compileLoop os config isRelease buildPath rest r.2
      (next.1, objPath :: next.2.1, next.2.2.1,
        [Event.out ("  Compiling " ++ filename ++ "..."), Event.system compileCmd]
          ++ next.2.2.2)

/-- The archive command over the object files (lines 483-486). -/
def archiveCommand (config : TomlConfig) (buildPath : String) (objectFiles : List String) :
    String :=
  objectFiles.foldl (fun acc obj => acc ++ (" " ++ obj))
    ("ar rcs " ++ (buildPath ++ "/"
      ++ getOutputFilename config.name config.type config.platform))

/-- The compile and link stage (lines 450-513). -/
def compileStage {W : Type} (os : OS W) (config : TomlConfig) (isRelease : Bool)
    (buildPath : String) (sourceFiles : List String) (w : W) : W × List Event :=
  if config.type = "lib" then
    let loop := compileLoop os config isRelease buildPath sourceFiles w
    let log := Event.out "Compiling object files..." :: loop.2.2.2
    if loop.2.2.1 = false ∧ loop.2.1 ≠ [] then
      let libPath := buildPath ++ "/"
        ++ getOutputFilename config.name config.type config.platform
      let arCmd := archiveCommand config buildPath loop.2.1
      let r := os.system loop.1 arCmd
      (r.2, log ++ [Event.out "Creating static library...", Event.out ("Running: " ++ arCmd),
          Event.system arCmd]
        ++ (if r.1 = 0 then [Event.out "Build successful!", Event.out ("Output: " ++ libPath)]
            else [Event.err "Build failed!"]))
    else (loop.1, log)
  else
    let cmd := buildCommand (os.fileExists w) config isRelease sourceFiles
    let r := os.system w cmd
    (r.2, [Event.out ("Running: " ++ cmd), Event.system cmd]
      ++ (if r.1 = 0 then
            [Event.out "Build successful!",
             Event.out ("Output: build/" ++ (if isRelease then "release" else "debug") ++ "/"
               ++ getOutputFilename config.name config.type config.platform)]
          else [Event.err "Build failed!"]))

/-- The removal of the temporary resource files (lines 515-521). -/
def cleanupTemporaries {W : Type} (os : OS W) (w : W) : W :=
  let w1 := if os.fileExists w "resource.rc" then os.deleteFile w "resource.rc" else w
  if os.fileExists w1 "resource.o" then os.deleteFile w1 "resource.o" else w1

/-- `buildProject` (lines 373-522): the end state and the trace, or the
exception `parseToml` lets through. -/
def buildProject {W : Type} (host : Host) (os : OS W) (isRelease : Bool) (w : W) :
    Except StoiError (W × List Event) :=
  if os.fileExists w "cclank.toml" = false then
    Except.ok (w,
      [Event.err "Error: cclank.toml not found. Are you in a cclank project directory?"])
  else
    match parseToml (os.readLines w "cclank.toml") with
    | Except.error e => Except.error e
    | Except.ok (config, warnings) =>
      let profileName := if isRelease then "release" else "debug"
      let hostPlatform := getHostPlatform host
      let log := warnings.map Event.err
        ++ [Event.out ("Building " ++ config.name ++ " (" ++ profileName ++ " profile, "
              ++ config.type ++ " for " ++ config.platform ++ ")...")]
        ++ crossCompileMessages config hostPlatform
      let sourceFiles := findCppFiles os w "src"
      if sourceFiles = [] then
        Except.ok (w, log ++ [Event.err "Error: No .cpp files found in src/ directory"])
      else
        let log := log
          ++ [Event.out ("Found " ++ toString sourceFiles.length ++ " source file(s)")]
        let d1 := os.createDirectory w "build"
        if d1.1 = false then
          Except.ok (d1.2, log ++ [Event.err "Error: Could not create build directory"])
        else
          let buildPath := "build/" ++ profileName
          let d2 := os.createDirectory d1.2 buildPath
          if d2.1 = false then
            Except.ok (d2.2,
              log ++ [Event.err ("Error: Could not create " ++ buildPath ++ " directory")])
          else
            let res := compileResource os config d2.2
            let built := compileStage os config isRelease buildPath sourceFiles res.1
            Except.ok (cleanupTemporaries os built.1, log ++ res.2 ++ built.2)

/-! ## `new`, `run`, `clean` and `main` (lines 250-371, 524-637) -/

/-- The single-quote character of the messages of `createNewProject`. -/
def squote : String := String.singleton (Char.ofNat 39)

/-- `runProject` (lines 524-570). -/
def runProject {W : Type} (host : Host) (os : OS W) (isRelease : Bool) (w : W) :
    Except StoiError (W × List Event) :=
  if os.fileExists w "cclank.toml" = false then
    Except.ok (w,
      [Event.err "Error: cclank.toml not found. Are you in a cclank project directory?"])
  else
    match parseToml (os.readLines w "cclank.toml") with
    | Except.error e => Except.error e
    | Except.ok (config, warnings) =>
      let log := warnings.map Event.err
      if config.type ≠ "bin" then
        Except.ok (w, log ++
          [Event.err ("Error: Cannot run non-binary project (type = " ++ config.type ++ ")"),
           Event.err "Only projects with type = \"bin\" can be executed"])
      else
        let hostPlatform := getHostPlatform host
        if config.platform ≠ hostPlatform then
          Except.ok (w, log ++
            [Event.err ("Error: Cannot use " ++ squote ++ "run" ++ squote
               ++ " when the platform doesn" ++ squote ++ "t match the host platform"),
             Event.err ("Project platform: " ++ config.platform),
             Event.err ("Host platform: " ++ hostPlatform),
             Event.err ("Change platform to \"" ++ hostPlatform
               ++ "\" in cclank.toml to run on this system")])
        else
          let profileName := if isRelease then "release" else "debug"
          let outputFilename := getOutputFilename config.name config.type config.platform
          let exePath := "build\\" ++ profileName ++ "\\" ++ outputFilename
          let runCmd := "\"" ++ exePath ++ "\""
          if os.fileExists w exePath = false then
            match buildProject host os isRelease w with
            | Except.error e => Except.error e
            | Except.ok (w1, buildLog) =>
              let log := log ++ [Event.out "Executable not found, building first..."]
                ++ buildLog
              if os.fileExists w1 exePath = false then
                Except.ok (w1, log ++ [Event.err "Error: Build failed, executable not found"])
              else
                Except.ok ((os.system w1 runCmd).2,
                  log ++ [Event.out ("Running " ++ exePath ++ "...\n"), Event.system runCmd])
          else
            Except.ok ((os.system w runCmd).2,
              log ++ [Event.out ("Running " ++ exePath ++ "...\n"), Event.system runCmd])

/-- The data-model invariants of the specification: enumerated platform and
type, and both optimisation levels within 0..3. -/
def Valid (config : TomlConfig) : Prop :=
  (config.platform = "win" ∨ config.platform = "linux" ∨ config.platform = "mac")
  ∧ (config.type = "bin" ∨ config.type = "lib" ∨ config.type = "dylib")
  ∧ (0 ≤ config.dev.optLevel ∧ config.dev.optLevel ≤ 3)
  ∧ (0 ≤ config.release.optLevel ∧ config.release.optLevel ≤ 3)

/-- A command line as the specification describes it: the program name
followed by its arguments, each preceded by one blank. -/
def render (args : List String) : String :=
  args.foldl (fun acc a => acc ++ (" " ++ a)) "g++"

/-- Leading blanks removed: the list view of what `trim` cuts at the front. -/
def lstrip (l : List Char) : List Char := l.dropWhile isTrimChar

/-- Trailing blanks removed: the list view of what `trim` cuts at the back. -/
def rstrip : List Char → List Char
  | [] => []
  | c :: cs => if rstrip cs = [] ∧ isTrimChar c = true then [] else c :: rstrip cs

/-- A line that, read as `key = value`, gives `platform` or `type` a value
outside the enumeration or `opt-level` an integer outside 0..3. -/
def assignsOutsideEnum (rawLine : String) : Bool :=
  match keyValue (trim (removeComments rawLine)) with
  | none => false
  | some (key, value) =>
    (key == "platform" && !(value == "win" || value == "linux" || value == "mac"))
    || (key == "type" && !(value == "bin" || value == "lib" || value == "dylib"))
    || (key == "opt-level" &&
        match stoi value with
        | Except.ok n => decide (n < 0) || decide (3 < n)
        | Except.error _ => false)

/-- The keys each recognised section reads; `false` for every key of a
section other than `package`, `profile.dev` and `profile.release`. -/
def recognizedKey (currentSection key : String) : Bool :=
  (currentSection == "package" &&
    (key == "name" || key == "version" || key == "platform" || key == "type"
      || key == "icon"))
  || ((currentSection == "profile.dev" || currentSection == "profile.release") &&
    (key == "opt-level" || key == "debug" || key == "codegen-units" || key == "lto"))

/-- The profile `buildCommand` selects: release when `isRelease`, else dev. -/
def selectedProfile (config : TomlConfig) (isRelease : Bool) : Profile :=
  if isRelease then config.release else config.dev

/-- The profile name: `release` when `isRelease`, else `debug`. -/
def profileName (isRelease : Bool) : String :=
  if isRelease then "release" else "debug"

/-- The optimisation flag as `buildCommand` emits it: one of the four flags,
and none for a level outside 0..3. -/
def optFlag (optLevel : Int) : List String :=
  if optLevel = 0 then ["-O0"]
  else if optLevel = 1 then ["-O1"]
  else if optLevel = 2 then ["-O2"]
  else if optLevel = 3 then ["-O3"]
  else []

/-- The profile flags: optimisation, then debug info, then LTO. -/
def profileFlags (p : Profile) : List String :=
  optFlag p.optLevel ++ (if p.debug then ["-g"] else [])
    ++ (if p.lto = "fat" then ["-flto"] else [])

/-- The mode flags, a function of kind and platform alone: compile-only for
`lib`; shared-object for `dylib` (and its aliases `dll` and `so`), followed by
PIC when the platform is not `win`. -/
def modeFlags (type platform : String) : List String :=
  (if type = "lib" then ["-c"] else [])
    ++ (if type = "dylib" ∨ type = "dll" ∨ type = "so" then
          "-shared" :: (if platform ≠ "win" then ["-fPIC"] else [])
        else [])

/-- The compiled-resource object as `buildCommand` emits it (lines 226-229):
for a win binary when the file named `icon.ico` exists. -/
def resourceArgs (fileExists : String → Bool) (config : TomlConfig) : List String :=
  if config.platform = "win" ∧ config.type = "bin" ∧ fileExists "icon.ico" = true then
    ["resource.o"]
  else []

/-- The output argument: the bare directory for `lib`, else the artifact path. -/
def outputArg (config : TomlConfig) (isRelease : Bool) : String :=
  if config.type = "lib" then "-o build/" ++ profileName isRelease ++ "/"
  else "-o build/" ++ profileName isRelease ++ "/"
    ++ getOutputFilename config.name config.type config.platform

/-- The platform link flags: static linking and the shell-API library for a
`win` binary. -/
def linkArgs (config : TomlConfig) : List String :=
  if config.platform = "win" ∧ config.type = "bin" then ["-static", "-lshlwapi"] else []

/-- The arguments that follow the source files: resource object, output
argument, platform link flags. -/
def tailArgs (fileExists : String → Bool) (config : TomlConfig) (isRelease : Bool) :
    List String :=
  resourceArgs fileExists config ++ [outputArg config isRelease] ++ linkArgs config

/-- The compiled-resource object under the icon condition of the
specification: for a win binary when the file named by the model's icon path
exists. -/
def specResourceArgs (fileExists : String → Bool) (config : TomlConfig) : List String :=
  if config.platform = "win" ∧ config.type = "bin" ∧ fileExists config.icon = true then
    ["resource.o"]
  else []

/-- The argument list of the specification, in its fixed order, with the
optimisation flag written `-O<optLevel>` and the resource object under the
specification's icon condition. -/
def commandArgs (fileExists : String → Bool) (config : TomlConfig) (isRelease : Bool)
    (sourceFiles : List String) : List String :=
  ["-O" ++ toString (selectedProfile config isRelease).optLevel]
    ++ (if (selectedProfile config isRelease).debug then ["-g"] else [])
    ++ (if (selectedProfile config isRelease).lto = "fat" then ["-flto"] else [])
    ++ modeFlags config.type config.platform
    ++ sourceFiles
    ++ specResourceArgs fileExists config
    ++ [outputArg config isRelease]
    ++ linkArgs config

/-- The commands passed to `system`, in order. -/
def systemCalls (log : List Event) : List String :=
  log.filterMap fun e =>
    match e with
    | Event.system cmd => some cmd
    | _ => none

/-- The lines written to `std::cerr`, in order. -/
def errorLines (log : List Event) : List String :=
  log.filterMap fun e =>
    match e with
    | Event.err line => some line
    | _ => none

/-- The one compile command of a source file in a static-library build: the
command line for that source alone followed by its object name. -/
def compileCommand (config : TomlConfig) (isRelease : Bool) (srcFile : String) : String :=
  buildCommand (fun _ => false) config isRelease [srcFile] ++ objectName srcFile

/-- A run that is refused: it returns with the state untouched and a trace
that holds nothing but lines on `std::cerr`, so no `system` call and no build
was made. -/
def refusesToRun {W : Type} (w : W) (result : Except StoiError (W × List Event)) : Prop :=
  ∃ log, result = Except.ok (w, log) ∧ ∀ e ∈ log, ∃ line, e = Event.err line

/-- A stateless disk for examples: `cclank.toml` with the given lines is the
only file, `src` lists the given sources, directories and files can always be
created, and `system` answers with `status`. -/
def diskWith (manifest : List String) (sources : List String) (status : String → Int) :
    OS Unit where
  fileExists := fun _ path => path == "cclank.toml"
  directoryExists := fun _ _ => false
  createDirectory := fun _ _ => (true, ())
  findFiles := fun _ pattern =>
    if pattern = "src\\*.cpp" then sources.map fun s => (s, false) else []
  readLines := fun _ path => if path = "cclank.toml" then some manifest else none
  writeFile := fun _ _ _ => (true, ())
  deleteFile := fun _ _ => ()
  system := fun _ cmd => (status cmd, ())
  iconResource := none

/-- A static-library project with three sources whose second compile fails. -/
def threeSourceLib : OS Unit :=
  diskWith ["[package]", "name = \"demo\"", "type = \"lib\""] ["a.cpp", "b.cpp", "c.cpp"]
    fun cmd => if cmd = "g++ -O0 -g -c src\\b.cpp -o build/debug/b.o" then 1 else 0

/-! ## Theorems -/

/-! ### `trim`, `removeComments` and the shape of an assignment line -/

theorem findLastNotOf_none {l : List Char} (h : findLastNotOf l = none) : rstrip l = [] := by
  induction l with
  | nil => rfl
  | cons c cs ih =>
    simp only [findLastNotOf] at h
    split at h
    · simp at h
    · rename_i hn
      split at h
      · rename_i hc
        simp [rstrip, ih hn, hc]
      · simp at h

theorem findLastNotOf_some {l : List Char} {j : Nat} (h : findLastNotOf l = some j) :
    l.take (j + 1) = rstrip l ∧ rstrip l ≠ [] := by
  induction l generalizing j with
  | nil => simp [findLastNotOf] at h
  | cons c cs ih =>
    simp only [findLastNotOf] at h
    split at h
    · rename_i i hi
      obtain ⟨h1, h2⟩ := ih hi
      simp only [Option.some.injEq] at h
      subst h
      simp [rstrip, h1, h2]
    · rename_i hn
      split at h
      · simp at h
      · rename_i hc
        simp only [Option.some.injEq] at h
        subst h
        simp [rstrip, findLastNotOf_none hn, hc]

theorem findFirstNotOf_none {l : List Char} (h : findFirstNotOf l = none) : lstrip l = [] := by
  induction l with
  | nil => rfl
  | cons c cs ih =>
    simp only [findFirstNotOf] at h
    split at h
    · rename_i hc
      simp only [Option.map_eq_none'] at h
      have := ih h
      simp only [lstrip] at this ⊢
      rw [List.dropWhile_cons_of_pos hc]
      exact this
    · simp at h

theorem rstrip_lstrip (l : List Char) : rstrip (lstrip l) = lstrip (rstrip l) := by
  induction l with
  | nil => rfl
  | cons c cs ih =>
    by_cases hc : isTrimChar c = true
    · have h1 : lstrip (c :: cs) = lstrip cs := by simp [lstrip, hc]
      rw [h1, ih]
      by_cases hr : rstrip cs = []
      · simp [rstrip, hr, hc, lstrip]
      · simp [rstrip, hr, hc, lstrip]
    · have h1 : lstrip (c :: cs) = c :: cs := by simp [lstrip, hc]
      rw [h1]
      simp [rstrip, hc, lstrip]

theorem trim_index {l : List Char} {i j : Nat} (hi : findFirstNotOf l = some i)
    (hj : findLastNotOf l = some j) :
    (l.drop i).take (j - i + 1) = rstrip (lstrip l) := by
  induction l generalizing i j with
  | nil => simp [findFirstNotOf] at hi
  | cons c cs ih =>
    simp only [findFirstNotOf] at hi
    simp only [findLastNotOf] at hj
    split at hi
    · rename_i hc
      have h1 : lstrip (c :: cs) = lstrip cs := by simp [lstrip, hc]
      rw [h1]
      simp only [Option.map_eq_some'] at hi
      obtain ⟨i1, hi1, rfl⟩ := hi
      split at hj
      · rename_i j1 hj1
        simp only [Option.some.injEq] at hj
        subst hj
        simpa using ih hi1 hj1
      · simp [hc] at hj
    · rename_i hc
      have h1 : lstrip (c :: cs) = c :: cs := by simp [lstrip, hc]
      simp only [Option.some.injEq] at hi
      subst hi
      rw [h1]
      split at hj
      · rename_i j1 hj1
        simp only [Option.some.injEq] at hj
        subst hj
        simp [rstrip, hc, (findLastNotOf_some hj1).1]
      · rename_i hn
        simp [hc] at hj
        subst hj
        simp [rstrip, hc, findLastNotOf_none hn]

theorem findLast_none_first {l : List Char} (h : findLastNotOf l = none) :
    findFirstNotOf l = none := by
  induction l with
  | nil => rfl
  | cons c cs ih =>
    simp only [findLastNotOf] at h
    split at h
    · simp at h
    · rename_i hn
      split at h
      · rename_i hc
        simp [findFirstNotOf, hc, ih hn]
      · simp at h

theorem trim_data (s : String) : (trim s).data = rstrip (lstrip s.data) := by
  unfold trim
  split
  · rename_i h
    simp [findFirstNotOf_none h, rstrip]
  · rename_i i hi
    split
    · rename_i j hj
      simpa [substr] using trim_index hi hj
    · rename_i hn
      rw [findLast_none_first hn] at hi
      simp at hi

theorem lstrip_idem (l : List Char) : lstrip (lstrip l) = lstrip l := by
  induction l with
  | nil => rfl
  | cons c cs ih =>
    by_cases hc : isTrimChar c = true
    · simpa [lstrip, hc] using ih
    · simp [lstrip, hc]

theorem rstrip_idem (l : List Char) : rstrip (rstrip l) = rstrip l := by
  induction l with
  | nil => rfl
  | cons c cs ih =>
    by_cases h : rstrip cs = [] ∧ isTrimChar c = true
    · simp [rstrip, h]
    · have h1 : rstrip (c :: cs) = c :: rstrip cs := by simp only [rstrip, if_neg h]
      rw [h1]
      simp only [rstrip, ih, if_neg h]

theorem trim_trim (s : String) : trim (trim s) = trim s := by
  apply String.ext
  rw [trim_data, trim_data, rstrip_lstrip (rstrip (lstrip s.data)), rstrip_idem,
    ← rstrip_lstrip, lstrip_idem]

theorem removeQuotes_trim (s : String) : removeQuotes (trim s) = removeQuotes s := by
  simp only [removeQuotes, trim_trim]

theorem find_takeWhile (l : List Char) :
    (match find '#' l with
      | some i => (l.drop 0).take i
      | none => l) = l.takeWhile (fun c => c != '#') := by
  induction l with
  | nil => rfl
  | cons c cs ih =>
    by_cases hc : c = '#'
    · simp [find, hc]
    · simp only [find, if_neg hc]
      cases hf : find '#' cs with
      | none => simp [hf] at ih; simp [hc, ← ih]
      | some i => simp [hf] at ih; simp [hc, ← ih]

theorem removeComments_data (s : String) :
    (removeComments s).data = s.data.takeWhile (fun c => c != '#') := by
  rw [← find_takeWhile]
  unfold removeComments
  cases find '#' s.data <;> simp [substr]

theorem lstrip_append_eq (k b : List Char) :
    lstrip (k ++ '=' :: b) = lstrip k ++ '=' :: b := by
  induction k with
  | nil => simp [lstrip, isTrimChar]
  | cons c cs ih =>
    by_cases hc : isTrimChar c = true
    · simpa [lstrip, hc] using ih
    · simp [lstrip, hc]

theorem rstrip_eq_cons (b : List Char) : rstrip ('=' :: b) = '=' :: rstrip b := by
  simp [rstrip, isTrimChar]

theorem rstrip_append_eq (x b : List Char) :
    rstrip (x ++ '=' :: b) = x ++ '=' :: rstrip b := by
  induction x with
  | nil => simpa using rstrip_eq_cons b
  | cons c cs ih =>
    have h : ¬ (rstrip (cs ++ '=' :: b) = [] ∧ isTrimChar c = true) := by
      rw [ih]; simp
    rw [List.cons_append, rstrip, if_neg h, ih, List.cons_append]

theorem find_append_eq {k : List Char} (hk : '=' ∉ k) (b : List Char) :
    find '=' (k ++ '=' :: b) = some k.length := by
  induction k with
  | nil => simp [find]
  | cons c cs ih =>
    simp only [List.mem_cons, not_or] at hk
    have hc : c ≠ '=' := fun h => hk.1 h.symm
    simp [find, hc, ih hk.2]

theorem find_none {l : List Char} (hl : '=' ∉ l) : find '=' l = none := by
  induction l with
  | nil => rfl
  | cons c cs ih =>
    simp only [List.mem_cons, not_or] at hl
    have hc : c ≠ '=' := fun h => hl.1 h.symm
    simp [find, hc, ih hl.2]

theorem takeWhile_append_eq {k : List Char} (hk : '#' ∉ k) (v : List Char) :
    (k ++ '=' :: v).takeWhile (fun c => c != '#')
      = k ++ '=' :: v.takeWhile (fun c => c != '#') := by
  induction k with
  | nil => simp
  | cons c cs ih =>
    simp only [List.mem_cons, not_or] at hk
    have hc : c ≠ '#' := fun h => hk.1 h.symm
    simp [hc, ih hk.2]

theorem lstrip_subset (l : List Char) : ∀ c ∈ lstrip l, c ∈ l := fun _ hc =>
  (List.dropWhile_sublist _).subset hc

theorem rstrip_subset (l : List Char) : ∀ c ∈ rstrip l, c ∈ l := by
  induction l with
  | nil => simp [rstrip]
  | cons a as ih =>
    intro c hc
    simp only [rstrip] at hc
    split at hc
    · simp at hc
    · rcases List.mem_cons.1 hc with h | h
      · exact List.mem_cons.2 (Or.inl h)
      · exact List.mem_cons.2 (Or.inr (ih c h))

theorem raw_data (k v : String) :
    (k ++ "=" ++ v).data = k.data ++ '=' :: v.data := by
  simp [String.data_append]

theorem line_data (k v : String) (hc : '#' ∉ k.data) :
    (trim (removeComments (k ++ "=" ++ v))).data
      = lstrip k.data ++ '=' :: rstrip (removeComments v).data := by
  rw [trim_data, removeComments_data, raw_data, takeWhile_append_eq hc, lstrip_append_eq,
    rstrip_append_eq, removeComments_data]

theorem trim_mk_lstrip (k : String) : trim ⟨lstrip k.data⟩ = trim k := by
  apply String.ext
  rw [trim_data, trim_data, lstrip_idem]

theorem trim_mk_rstrip (v : String) : trim ⟨rstrip v.data⟩ = trim v := by
  apply String.ext
  rw [trim_data, trim_data, ← rstrip_lstrip, rstrip_idem]

theorem keyValue_raw (k v : String) (he : '=' ∉ k.data) (hc : '#' ∉ k.data) :
    keyValue (trim (removeComments (k ++ "=" ++ v)))
      = some (trim k, removeQuotes (removeComments v)) := by
  have hl : '=' ∉ lstrip k.data := fun h => he (lstrip_subset _ _ h)
  unfold keyValue
  rw [line_data k v hc, find_append_eq hl]
  simp only [substr, substrFrom, line_data k v hc, List.drop_zero]
  have h2 : List.drop ((lstrip k.data).length + 1)
      (lstrip k.data ++ '=' :: rstrip (removeComments v).data)
        = rstrip (removeComments v).data := by
    simp
  simp only [List.take_left, h2, trim_mk_lstrip, trim_mk_rstrip, removeQuotes_trim]

theorem lstrip_head {l : List Char} {x : Char} {xs : List Char} (h : lstrip l = x :: xs) :
    isTrimChar x = false := by
  induction l with
  | nil => simp [lstrip] at h
  | cons c cs ih =>
    by_cases hc : isTrimChar c = true
    · apply ih
      simpa [lstrip, hc] using h
    · simp only [lstrip, List.dropWhile_cons_of_neg hc, List.cons.injEq] at h
      rw [← h.1]
      simpa using hc

theorem trim_head (k : String) : (trim k).data.head? = (lstrip k.data).head? := by
  rw [trim_data]
  cases h : lstrip k.data with
  | nil => simp [rstrip]
  | cons x xs =>
    have hx := lstrip_head h
    simp [rstrip, hx]

theorem processLine_raw (st : ParseState) (k v : String) (he : '=' ∉ k.data)
    (hc : '#' ∉ k.data) (hh : (trim k).data.head? ≠ some '[') :
    processLine st (k ++ "=" ++ v)
      = (assign st.currentSection (trim k) (removeQuotes (removeComments v)) st.config).map
          fun c => { st with config := c } := by
  have hd := line_data k v hc
  have hne : (trim (removeComments (k ++ "=" ++ v))).data ≠ [] := by
    rw [hd]; simp
  have hhead : (trim (removeComments (k ++ "=" ++ v))).data.head? ≠ some '[' := by
    rw [hd]
    rw [trim_head] at hh
    cases h : lstrip k.data with
    | nil => simp
    | cons x xs => rw [h] at hh; simpa using hh
  unfold processLine
  simp only [hne, if_false]
  rw [if_neg (fun h => hhead h.1), keyValue_raw k v he hc]

/-! ### The claims -/

/-- C1: for every project name, `getOutputFilename` follows the table on all
nine (kind, platform) pairs, and gives the three documented file names for
the project name app. -/
theorem C1_getOutputFilename_table (n : String) :
    getOutputFilename n "bin" "win" = n ++ ".exe"
    ∧ getOutputFilename n "bin" "linux" = n
    ∧ getOutputFilename n "bin" "mac" = n
    ∧ getOutputFilename n "lib" "win" = n ++ ".lib"
    ∧ getOutputFilename n "lib" "linux" = "lib" ++ n ++ ".a"
    ∧ getOutputFilename n "lib" "mac" = "lib" ++ n ++ ".a"
    ∧ getOutputFilename n "dylib" "win" = n ++ ".dll"
    ∧ getOutputFilename n "dylib" "linux" = "lib" ++ n ++ ".so"
    ∧ getOutputFilename n "dylib" "mac" = "lib" ++ n ++ ".dylib"
    ∧ getOutputFilename "app" "bin" "win" = "app.exe"
    ∧ getOutputFilename "app" "lib" "linux" = "libapp.a"
    ∧ getOutputFilename "app" "dylib" "mac" = "libapp.dylib" := by
  refine ⟨?_, ?_, ?_, ?_, ?_, ?_, ?_, ?_, ?_, ?_, ?_, ?_⟩ <;>
    simp [getOutputFilename]

/-- C2: when the manifest cannot be opened, `parseToml` returns the documented
default model (dev 0/true/4/off, release 3/false/1/fat, platform win, type
bin) and writes exactly one warning. -/
theorem C2_parseToml_missing_file :
    ∃ cfg warnings, parseToml none = Except.ok (cfg, warnings)
      ∧ cfg.dev = { optLevel := 0, debug := true, codegenUnits := 4, lto := "off" }
      ∧ cfg.release = { optLevel := 3, debug := false, codegenUnits := 1, lto := "fat" }
      ∧ cfg.platform = "win" ∧ cfg.type = "bin"
      ∧ cfg.name = "unnamed_project" ∧ cfg.version = "0.1.0" ∧ cfg.icon = "icon.ico"
      ∧ warnings.length = 1 := by
  refine ⟨initialConfig, _, rfl, ?_, ?_, ?_, ?_, ?_, ?_, ?_, ?_⟩ <;> rfl

theorem valid_initialConfig : Valid initialConfig := by
  simp [Valid, initialConfig]

theorem assign_valid {sec key value : String} {config c : TomlConfig} (hv : Valid config)
    (hp : key = "platform" → value = "win" ∨ value = "linux" ∨ value = "mac")
    (ht : key = "type" → value = "bin" ∨ value = "lib" ∨ value = "dylib")
    (ho : key = "opt-level" → ∀ n, stoi value = Except.ok n → 0 ≤ n ∧ n ≤ 3)
    (h : assign sec key value config = Except.ok c) : Valid c := by
  obtain ⟨v1, v2, v3, v4⟩ := hv
  unfold assign at h
  split_ifs at h with h1 h2 h3 h4 h5 h6 h7 h8 h9 h10 h11 h12 h13 h14 h15 h16
  all_goals first
    | (simp only [Except.ok.injEq] at h; subst h; exact ⟨v1, v2, v3, v4⟩)
    | (simp only [Except.ok.injEq] at h; subst h; exact ⟨hp h4, v2, v3, v4⟩)
    | (simp only [Except.ok.injEq] at h; subst h; exact ⟨v1, ht h5, v3, v4⟩)
    | (cases hs : stoi value with
        | error e => simp [hs, Except.map] at h
        | ok n =>
          simp only [hs, Except.map, Except.ok.injEq] at h
          subst h
          first
            | exact ⟨v1, v2, v3, v4⟩
            | exact ⟨v1, v2, ho (by assumption) n hs, v4⟩
            | exact ⟨v1, v2, v3, ho (by assumption) n hs⟩)

theorem processLine_valid {st st1 : ParseState} {l : String} (hv : Valid st.config)
    (hl : assignsOutsideEnum l = false) (h : processLine st l = Except.ok st1) :
    Valid st1.config := by
  unfold processLine at h
  simp only at h
  split_ifs at h with h1 h2
  · simp only [Except.ok.injEq] at h; subst h; exact hv
  · simp only [Except.ok.injEq] at h; subst h; exact hv
  · unfold assignsOutsideEnum at hl
    cases hkv : keyValue (trim (removeComments l)) with
    | none =>
      simp only [hkv, Except.ok.injEq] at h
      subst h; exact hv
    | some kv =>
      obtain ⟨key, value⟩ := kv
      simp only [hkv] at h hl
      cases ha : assign st.currentSection key value st.config with
      | error e => simp [ha, Except.map] at h
      | ok c =>
        simp only [ha, Except.map, Except.ok.injEq] at h
        subst h
        simp only [Bool.or_eq_false_iff, Bool.and_eq_false_iff] at hl
        obtain ⟨⟨hp, ht⟩, ho⟩ := hl
        refine assign_valid hv ?_ ?_ ?_ ha
        · intro hk
          simp [hk] at hp
          tauto
        · intro hk
          simp [hk] at ht
          tauto
        · intro hk n hn
          simp only [hk, hn, beq_self_eq_true, Bool.true_eq_false, false_or,
            Bool.or_eq_false_iff, decide_eq_false_iff_not, not_lt] at ho
          exact ho

theorem parseLines_valid {st st1 : ParseState} {ls : List String} (hv : Valid st.config)
    (hl : ∀ l ∈ ls, assignsOutsideEnum l = false) (h : parseLines st ls = Except.ok st1) :
    Valid st1.config := by
  induction ls generalizing st with
  | nil =>
    simp only [parseLines, Except.ok.injEq] at h
    subst h; exact hv
  | cons a as ih =>
    simp only [parseLines] at h
    cases ha : processLine st a with
    | error e => simp [ha] at h
    | ok st2 =>
      rw [ha] at h
      exact ih (processLine_valid hv (hl a (List.mem_cons_self _ _)) ha)
        (fun l hm => hl l (List.mem_cons_of_mem _ hm)) h

/-- C4 (amended): a model that `parseToml` returns without error satisfies the
invariants when the manifest cannot be opened or none of its lines assigns an
unrecognised platform or type or an opt-level outside 0..3.  Such assignments
are no parse errors: under `[package]` a `platform` or `type` line never
raises an error and stores its value (comment cut, trimmed, unquoted)
whatever it is, and under a profile section an `opt-level` line whose value
`std::stoi` reads as the integer `n` stores `n` whatever `n` is. -/
theorem C4_valid_when_no_line_breaks_enum :
    (∀ (file : Option (List String)) (cfg : TomlConfig) (warnings : List String),
      (∀ lines, file = some lines → ∀ l ∈ lines, assignsOutsideEnum l = false) →
      parseToml file = Except.ok (cfg, warnings) → Valid cfg)
    ∧ (∀ (st : ParseState) (k v : String),
      st.currentSection = "package" → '=' ∉ k.data → '#' ∉ k.data →
      (trim k = "platform" →
        processLine st (k ++ "=" ++ v) = Except.ok { st with config := { st.config with
          platform := removeQuotes (removeComments v) } })
      ∧ (trim k = "type" →
        processLine st (k ++ "=" ++ v) = Except.ok { st with config := { st.config with
          type := removeQuotes (removeComments v) } }))
    ∧ (∀ (st : ParseState) (k v : String) (n : Int),
      '=' ∉ k.data → '#' ∉ k.data → trim k = "opt-level" →
      stoi (removeQuotes (removeComments v)) = Except.ok n →
      (st.currentSection = "profile.dev" →
        processLine st (k ++ "=" ++ v) = Except.ok { st with config := { st.config with
          dev := { st.config.dev with optLevel := n } } })
      ∧ (st.currentSection = "profile.release" →
        processLine st (k ++ "=" ++ v) = Except.ok { st with config := { st.config with
          release := { st.config.release with optLevel := n } } })) := by
  refine ⟨?_, ?_, ?_⟩
  · intro file cfg warnings hlines h
    cases file with
    | none =>
      simp only [parseToml, Except.ok.injEq, Prod.mk.injEq] at h
      rw [← h.1]; exact valid_initialConfig
    | some lines =>
      simp only [parseToml] at h
      cases hp : parseLines ⟨"", initialConfig⟩ lines with
      | error e => simp [hp] at h
      | ok st =>
        simp only [hp, Except.ok.injEq, Prod.mk.injEq] at h
        rw [← h.1]
        exact parseLines_valid valid_initialConfig (hlines lines rfl) hp
  · intro st k v hs he hc
    constructor
    · intro hkey
      have hh : (trim k).data.head? ≠ some '[' := by rw [hkey]; decide
      rw [processLine_raw st k v he hc hh, hkey]
      simp [assign, hs, Except.map]
    · intro hkey
      have hh : (trim k).data.head? ≠ some '[' := by rw [hkey]; decide
      rw [processLine_raw st k v he hc hh, hkey]
      simp [assign, hs, Except.map]
  · intro st k v n he hc hkey hn
    have hh : (trim k).data.head? ≠ some '[' := by rw [hkey]; decide
    constructor
    · intro hs
      rw [processLine_raw st k v he hc hh, hkey]
      simp [assign, hs, hn, Except.map]
    · intro hs
      rw [processLine_raw st k v he hc hh, hkey]
      simp [assign, hs, hn, Except.map]

/-- C4 witness: a manifest that sets platform linux, type dylib and dev
opt-level 2 gives a model that satisfies the invariants; the line
`platform = "bsd"` under `[package]` stores bsd; and the line `opt-level = 7`
under `[profile.dev]` stores 7. -/
theorem C4_valid_when_no_line_breaks_enum_witness :
    Valid { initialConfig with
      platform := "linux", type := "dylib", dev := { initialConfig.dev with optLevel := 2 } }
    ∧ processLine ⟨"package", initialConfig⟩ ("platform " ++ "=" ++ " \"bsd\"")
        = Except.ok ⟨"package", { initialConfig with platform := "bsd" }⟩
    ∧ processLine ⟨"profile.dev", initialConfig⟩ ("opt-level " ++ "=" ++ " 7")
        = Except.ok ⟨"profile.dev",
            { initialConfig with dev := { initialConfig.dev with optLevel := 7 } }⟩ :=
  ⟨C4_valid_when_no_line_breaks_enum.1
    (some ["[package]", "platform = \"linux\"", "type = \"dylib\"", "[profile.dev]",
      "opt-level = 2"]) _ []
    (by
      intro lines hl
      cases hl
      decide)
    (by rfl),
   ((C4_valid_when_no_line_breaks_enum.2.1 ⟨"package", initialConfig⟩ "platform " " \"bsd\""
      rfl (by decide) (by decide)).1 (by rfl)),
   ((C4_valid_when_no_line_breaks_enum.2.2 ⟨"profile.dev", initialConfig⟩ "opt-level " " 7" 7
      (by decide) (by decide) (by rfl) (by rfl)).1 rfl)⟩

/-- C4 (counterexample): a manifest with platform bsd, type exe and dev
opt-level 7 is loaded without error, and the returned model breaks all three
invariants. -/
theorem C4_counterexample :
    ∃ cfg, parseToml (some ["[package]", "platform = \"bsd\"", "type = \"exe\"",
        "[profile.dev]", "opt-level = 7"]) = Except.ok (cfg, [])
      ∧ cfg.platform = "bsd" ∧ cfg.type = "exe" ∧ cfg.dev.optLevel = 7 ∧ ¬ Valid cfg :=
  ⟨{ initialConfig with
      platform := "bsd", type := "exe", dev := { initialConfig.dev with optLevel := 7 } },
    by rfl, rfl, rfl, rfl, by simp [Valid]⟩

/-- C5 (amended): for a line `k = v` whose key text trims to `debug`, under
`[profile.dev]` or `[profile.release]`, no error is raised and the profile's
debug field becomes true exactly when `v`, cut at its first comment sign,
trimmed and with one pair of surrounding double quotes removed, is `true`;
nothing else in the model changes. -/
theorem C5_debug_true_iff_unquoted_true (st : ParseState) (k v : String)
    (he : '=' ∉ k.data) (hc : '#' ∉ k.data) (hkey : trim k = "debug") :
    (st.currentSection = "profile.dev" →
      processLine st (k ++ "=" ++ v) = Except.ok { st with config := { st.config with
        dev := { st.config.dev with
          debug := decide (removeQuotes (removeComments v) = "true") } } })
    ∧ (st.currentSection = "profile.release" →
      processLine st (k ++ "=" ++ v) = Except.ok { st with config := { st.config with
        release := { st.config.release with
          debug := decide (removeQuotes (removeComments v) = "true") } } }) := by
  have hh : (trim k).data.head? ≠ some '[' := by rw [hkey]; decide
  rw [processLine_raw st k v he hc hh, hkey]
  constructor
  · intro hs
    simp [assign, hs, Except.map]
  · intro hs
    simp [assign, hs, Except.map]

/-- C5 witness: `debug = TRUE` under `[profile.dev]` turns the dev debug flag
off without an error. -/
theorem C5_debug_true_iff_unquoted_true_witness :
    processLine ⟨"profile.dev", initialConfig⟩ ("debug " ++ "=" ++ " TRUE")
      = Except.ok ⟨"profile.dev",
          { initialConfig with dev := { initialConfig.dev with debug := false } }⟩ :=
  (C5_debug_true_iff_unquoted_true ⟨"profile.dev", initialConfig⟩ "debug " " TRUE"
    (by decide) (by decide) (by rfl)).1 rfl

/-- C5 (counterexample): under `[profile.release]`, where debug starts false,
the line `debug = "true"` has the trimmed value `"true"` in quotes, six
characters and not the literal `true`, and yet it sets debug to true. -/
theorem C5_counterexample :
    trim " \"true\"" ≠ "true"
    ∧ (trim " \"true\"").length = 6
    ∧ initialConfig.release.debug = false
    ∧ processLine ⟨"profile.release", initialConfig⟩ "debug = \"true\""
        = Except.ok ⟨"profile.release",
            { initialConfig with release := { initialConfig.release with debug := true } }⟩ :=
  ⟨by decide, by rfl, rfl, by rfl⟩

theorem takeWhile_idem (l : List Char) :
    (l.takeWhile (fun c => c != '#')).takeWhile (fun c => c != '#')
      = l.takeWhile (fun c => c != '#') := by
  induction l with
  | nil => rfl
  | cons c cs ih =>
    by_cases hc : c = '#'
    · simp [hc]
    · simp [hc, ih]

theorem removeComments_idem (line : String) :
    removeComments (removeComments line) = removeComments line := by
  apply String.ext
  rw [removeComments_data, removeComments_data, takeWhile_idem]

theorem prefix_takeWhile_of_no_hash (l p : List Char) (hp : p <+: l) (hn : '#' ∉ p) :
    p <+: l.takeWhile (fun c => c != '#') := by
  induction l generalizing p with
  | nil =>
    have : p = [] := List.prefix_nil.1 hp
    subst this; simp
  | cons a as ih =>
    cases p with
    | nil => exact List.nil_prefix
    | cons b bs =>
      obtain ⟨hab, hbs⟩ := List.cons_prefix_cons.1 hp
      subst hab
      simp only [List.mem_cons, not_or] at hn
      have hb : (b != '#') = true := by simpa using fun h => hn.1 h.symm
      have ht : (b :: as).takeWhile (fun c => c != '#')
          = b :: as.takeWhile (fun c => c != '#') := by
        simp [List.takeWhile_cons, hb]
      rw [ht]
      exact List.cons_prefix_cons.2 ⟨rfl, ih bs hbs hn.2⟩

/-- C6: the loader treats every line exactly as it treats the longest prefix
of it without a comment sign, wherever that sign stands; under `[package]`
the line `name = "a#b"` is read as `name = "a` and sets the name to the two
characters quote, a. -/
theorem C6_comment_removal_is_lexical :
    (∀ (st : ParseState) (line : String),
      processLine st line = processLine st (removeComments line))
    ∧ (∀ line : String,
      (removeComments line).data <+: line.data
      ∧ '#' ∉ (removeComments line).data
      ∧ ∀ p : List Char, p <+: line.data → '#' ∉ p → p <+: (removeComments line).data)
    ∧ (∀ cfg : TomlConfig,
      processLine ⟨"package", cfg⟩ "name = \"a#b\""
        = Except.ok ⟨"package", { cfg with name := ⟨[dquote, 'a']⟩ }⟩
      ∧ processLine ⟨"package", cfg⟩ "name = \"a#b\""
        = processLine ⟨"package", cfg⟩ "name = \"a")
    ∧ removeComments "name = \"a#b\"" = "name = \"a" := by
  refine ⟨?_, ?_, ?_, by decide⟩
  · intro st line
    simp only [processLine, removeComments_idem]
  · intro line
    rw [removeComments_data]
    refine ⟨List.takeWhile_prefix _, ?_, fun p hp hn => prefix_takeWhile_of_no_hash _ p hp hn⟩
    intro h
    simpa using List.mem_takeWhile_imp h
  · intro cfg
    exact ⟨by rfl, by rfl⟩

theorem assign_unrecognized {sec key : String} (value : String) (config : TomlConfig)
    (h : recognizedKey sec key = false) : assign sec key value config = Except.ok config := by
  unfold recognizedKey at h
  simp only [Bool.or_eq_false_iff, Bool.and_eq_false_iff, beq_eq_false_iff_ne, ne_eq] at h
  unfold assign
  obtain ⟨hp, hq⟩ := h
  by_cases h1 : sec = "package"
  · have := hp.resolve_left (not_not.2 h1)
    simp [h1, this]
  · by_cases h2 : sec = "profile.dev"
    · have := hq.resolve_left (by simp [h2])
      simp [h2, this]
    · by_cases h3 : sec = "profile.release"
      · have := hq.resolve_left (by simp [h3])
        simp [h3, this]
      · simp [h1, h2, h3]

theorem takeWhile_append_of_mem {k : List Char} (hk : '#' ∈ k) (r : List Char) :
    (k ++ r).takeWhile (fun c => c != '#') = k.takeWhile (fun c => c != '#') := by
  induction k with
  | nil => simp at hk
  | cons c cs ih =>
    by_cases hc : c = '#'
    · simp [hc]
    · have hcs : '#' ∈ cs := by
        rcases List.mem_cons.1 hk with h | h
        · exact absurd h.symm hc
        · exact h
      simp [hc, ih hcs]

theorem processLine_no_eq (st : ParseState) (line : String)
    (h : '=' ∉ (removeComments line).data) :
    ∃ sec, processLine st line = Except.ok ⟨sec, st.config⟩ := by
  have hl : '=' ∉ (trim (removeComments line)).data := by
    rw [trim_data]
    exact fun hm => h (lstrip_subset _ _ (rstrip_subset _ _ hm))
  unfold processLine
  simp only
  split_ifs with h1 h2
  · exact ⟨_, rfl⟩
  · exact ⟨_, rfl⟩
  · simp only [keyValue, find_none hl]
    exact ⟨_, rfl⟩

/-- C7: a line `k = v` whose section is not `package`, `profile.dev` or
`profile.release`, or whose key is not one its section reads, leaves every
field of the model as it was and raises no error, whatever the value. -/
theorem C7_unrecognized_key_leaves_model (st : ParseState) (k v : String)
    (he : '=' ∉ k.data) (hkey : recognizedKey st.currentSection (trim k) = false) :
    ∃ sec, processLine st (k ++ "=" ++ v) = Except.ok ⟨sec, st.config⟩ := by
  by_cases hc : '#' ∈ k.data
  · apply processLine_no_eq
    rw [removeComments_data, raw_data, takeWhile_append_of_mem hc]
    exact fun hm => he ((List.takeWhile_sublist _).subset hm)
  · by_cases hh : (trim k).data.head? = some '['
    · unfold processLine
      simp only
      split_ifs with h1 h2
      · exact ⟨_, rfl⟩
      · exact ⟨_, rfl⟩
      · rw [keyValue_raw k v he hc]
        simp only [assign_unrecognized _ _ hkey, Except.map]
        exact ⟨_, rfl⟩
    · rw [processLine_raw st k v he hc hh, assign_unrecognized _ _ hkey]
      exact ⟨_, rfl⟩

/-- C7 witness: `opt-level = "x"` under the unrecognised section `features`
changes nothing and raises no error. -/
theorem C7_unrecognized_key_leaves_model_witness :
    ∃ sec, processLine ⟨"features", initialConfig⟩ ("opt-level " ++ "=" ++ " \"x\"")
      = Except.ok ⟨sec, initialConfig⟩ :=
  C7_unrecognized_key_leaves_model ⟨"features", initialConfig⟩ "opt-level " " \"x\""
    (by decide) (by rfl)

theorem foldl_optFlag (n : Int) (cmd : String) :
    (optFlag n).foldl (fun acc a => acc ++ (" " ++ a)) cmd
      = if n = 0 then cmd ++ " -O0"
        else if n = 1 then cmd ++ " -O1"
        else if n = 2 then cmd ++ " -O2"
        else if n = 3 then cmd ++ " -O3"
        else cmd := by
  unfold optFlag
  split_ifs <;> rfl

theorem foldl_flag (c : Prop) [Decidable c] (x cmd : String) :
    (if c then [x] else []).foldl (fun acc a => acc ++ (" " ++ a)) cmd
      = if c then cmd ++ (" " ++ x) else cmd := by
  split_ifs <;> rfl

theorem foldl_modeFlags (type platform cmd : String) :
    (modeFlags type platform).foldl (fun acc a => acc ++ (" " ++ a)) cmd
      = (let cmd1 := if type = "lib" then cmd ++ " -c" else cmd
         if type = "dylib" ∨ type = "dll" ∨ type = "so" then
           if platform ≠ "win" then cmd1 ++ " -shared" ++ " -fPIC" else cmd1 ++ " -shared"
         else cmd1) := by
  unfold modeFlags
  simp only [List.foldl_append]
  split_ifs <;> rfl

theorem foldl_linkArgs (config : TomlConfig) (cmd : String) :
    (linkArgs config).foldl (fun acc a => acc ++ (" " ++ a)) cmd
      = if config.platform = "win" ∧ config.type = "bin" then cmd ++ " -static -lshlwapi"
        else cmd := by
  unfold linkArgs
  split_ifs
  · simp [String.append_assoc]
  · rfl

theorem foldl_outputArg (config : TomlConfig) (isRelease : Bool) (cmd : String) :
    cmd ++ (" " ++ outputArg config isRelease)
      = if config.type = "lib" then
          cmd ++ (" -o build/" ++ (if isRelease then "release" else "debug") ++ "/")
        else cmd ++ (" -o build/" ++ (if isRelease then "release" else "debug") ++ "/"
          ++ getOutputFilename config.name config.type config.platform) := by
  have hm : ∀ a x : String, " " ++ (a ++ x) = " " ++ a ++ x := fun a x =>
    (String.append_assoc _ _ _).symm
  unfold outputArg profileName
  by_cases h : config.type = "lib"
  · cases isRelease <;> simp [h]
  · cases isRelease <;> simp [h, String.append_assoc, hm]

/-- The command `buildCommand` returns is the program name followed by the
profile flags, the mode flags, the source files and the tail arguments. -/
theorem buildCommand_eq_render (fileExists : String → Bool) (config : TomlConfig)
    (isRelease : Bool) (sourceFiles : List String) :
    buildCommand fileExists config isRelease sourceFiles
      = render (profileFlags (selectedProfile config isRelease)
          ++ modeFlags config.type config.platform ++ sourceFiles
          ++ tailArgs fileExists config isRelease) := by
  simp only [render, profileFlags, tailArgs, resourceArgs, List.foldl_append, foldl_optFlag,
    foldl_flag, foldl_modeFlags, foldl_linkArgs, List.foldl_cons, List.foldl_nil,
    foldl_outputArg, buildCommand, selectedProfile]
  cases isRelease <;> simp

theorem mem_profileFlags {p : Profile} {x : String} (h : x ∈ profileFlags p) :
    x = "-O0" ∨ x = "-O1" ∨ x = "-O2" ∨ x = "-O3" ∨ x = "-g" ∨ x = "-flto" := by
  unfold profileFlags optFlag at h
  simp only [List.mem_append] at h
  rcases h with (h | h) | h <;> split_ifs at h <;> simp_all

/-- C8: for a model of type bin, lib or dylib, the arguments `buildCommand`
puts before the source files are the profile flags followed by the mode flags,
and among them `-c` is present exactly for lib, `-shared` exactly for dylib,
and `-fPIC` exactly for dylib off `win`; so lib has `-c` alone, dylib on linux
has `-shared -fPIC`, and dylib on win has `-shared` alone. -/
theorem C8_mode_flags_by_kind_and_platform (fileExists : String → Bool) (config : TomlConfig)
    (isRelease : Bool) (sourceFiles : List String)
    (ht : config.type = "bin" ∨ config.type = "lib" ∨ config.type = "dylib") :
    buildCommand fileExists config isRelease sourceFiles
      = render ((profileFlags (selectedProfile config isRelease)
          ++ modeFlags config.type config.platform) ++ sourceFiles
          ++ tailArgs fileExists config isRelease)
    ∧ ("-c" ∈ profileFlags (selectedProfile config isRelease)
          ++ modeFlags config.type config.platform ↔ config.type = "lib")
    ∧ ("-shared" ∈ profileFlags (selectedProfile config isRelease)
          ++ modeFlags config.type config.platform ↔ config.type = "dylib")
    ∧ ("-fPIC" ∈ profileFlags (selectedProfile config isRelease)
          ++ modeFlags config.type config.platform
        ↔ config.type = "dylib" ∧ config.platform ≠ "win")
    ∧ (config.type = "lib" → modeFlags config.type config.platform = ["-c"])
    ∧ (config.type = "dylib" → config.platform = "linux" →
        modeFlags config.type config.platform = ["-shared", "-fPIC"])
    ∧ (config.type = "dylib" → config.platform = "win" →
        modeFlags config.type config.platform = ["-shared"]) := by
  have hc : "-c" ∉ profileFlags (selectedProfile config isRelease) := fun h => by
    have := mem_profileFlags h
    revert this; decide
  have hs : "-shared" ∉ profileFlags (selectedProfile config isRelease) := fun h => by
    have := mem_profileFlags h
    revert this; decide
  have hp : "-fPIC" ∉ profileFlags (selectedProfile config isRelease) := fun h => by
    have := mem_profileFlags h
    revert this; decide
  refine ⟨buildCommand_eq_render _ _ _ _, ?_, ?_, ?_, ?_, ?_, ?_⟩
  · rcases ht with h | h | h <;> simp [modeFlags, h, hc]
  · rcases ht with h | h | h <;> simp [modeFlags, h, hs]
  · rcases ht with h | h | h <;> simp [modeFlags, h, hp]
  · intro h; simp [modeFlags, h]
  · intro h h1; simp [modeFlags, h, h1]
  · intro h h1; simp [modeFlags, h, h1]

/-- C8 witness: the default model turned into a dylib for linux. -/
theorem C8_mode_flags_by_kind_and_platform_witness :
    modeFlags "dylib" "linux" = ["-shared", "-fPIC"] :=
  (C8_mode_flags_by_kind_and_platform (fun _ => false)
    { initialConfig with type := "dylib", platform := "linux" } false ["src\\main.cpp"]
    (Or.inr (Or.inr rfl))).2.2.2.2.2.1 rfl rfl

/-- Apart from the icon condition the order of the specification holds: with
the optimisation level within 0..3, `buildCommand` returns the rendering of the
specification's argument list computed as if every icon path named the file
`icon.ico`; so it returns the specification's command whenever the model is
no win binary or its icon file exists exactly when `icon.ico` does. -/
theorem buildCommand_eq_commandArgs (fileExists : String → Bool) (config : TomlConfig)
    (isRelease : Bool) (sourceFiles : List String)
    (h0 : 0 ≤ (selectedProfile config isRelease).optLevel)
    (h3 : (selectedProfile config isRelease).optLevel ≤ 3) :
    buildCommand fileExists config isRelease sourceFiles
      = render (commandArgs (fun _ => fileExists "icon.ico") config isRelease sourceFiles)
    ∧ ((config.platform = "win" ∧ config.type = "bin" →
          fileExists config.icon = fileExists "icon.ico") →
        buildCommand fileExists config isRelease sourceFiles
          = render (commandArgs fileExists config isRelease sourceFiles)) := by
  have ho : optFlag (selectedProfile config isRelease).optLevel
      = ["-O" ++ toString (selectedProfile config isRelease).optLevel] := by
    generalize (selectedProfile config isRelease).optLevel = n at h0 h3
    have hn : n = 0 ∨ n = 1 ∨ n = 2 ∨ n = 3 := by omega
    rcases hn with h | h | h | h <;> subst h <;> rfl
  have h1 : buildCommand fileExists config isRelease sourceFiles
      = render (commandArgs (fun _ => fileExists "icon.ico") config isRelease sourceFiles) := by
    rw [buildCommand_eq_render, commandArgs, ← ho, profileFlags, tailArgs]
    simp only [List.append_assoc, resourceArgs, specResourceArgs]
  refine ⟨h1, fun hagree => ?_⟩
  rw [h1]
  have hr : specResourceArgs (fun _ => fileExists "icon.ico") config
      = specResourceArgs fileExists config := by
    unfold specResourceArgs
    by_cases hw : config.platform = "win" ∧ config.type = "bin"
    · simp [hw.1, hw.2, hagree hw]
    · have hn1 : ¬ (config.platform = "win" ∧ config.type = "bin"
          ∧ fileExists "icon.ico" = true) := fun h => hw ⟨h.1, h.2.1⟩
      have hn2 : ¬ (config.platform = "win" ∧ config.type = "bin"
          ∧ fileExists config.icon = true) := fun h => hw ⟨h.1, h.2.1⟩
      rw [if_neg hn1, if_neg hn2]
  simp only [commandArgs, hr]

/-- C9 (divergence): for the default win binary with icon set to `app.ico`,
present while `icon.ico` is absent, the argument order of the specification
has `resource.o` between the source and the output argument, and the command
`buildCommand` returns has no `resource.o`; with icon set to `none.ico`,
absent while `icon.ico` is present, `buildCommand` names a `resource.o` the
specification's order does not have. -/
theorem C9_resource_object_breaks_argument_order :
    (0 ≤ (selectedProfile { initialConfig with icon := "app.ico" } false).optLevel
      ∧ (selectedProfile { initialConfig with icon := "app.ico" } false).optLevel ≤ 3)
    ∧ render (commandArgs (fun p => p == "app.ico") { initialConfig with icon := "app.ico" }
        false ["src\\main.cpp"])
      = "g++ -O0 -g src\\main.cpp resource.o -o build/debug/unnamed_project.exe -static -lshlwapi"
    ∧ buildCommand (fun p => p == "app.ico") { initialConfig with icon := "app.ico" } false
        ["src\\main.cpp"]
      = "g++ -O0 -g src\\main.cpp -o build/debug/unnamed_project.exe -static -lshlwapi"
    ∧ render (commandArgs (fun p => p == "icon.ico") { initialConfig with icon := "none.ico" }
        false ["src\\main.cpp"])
      = "g++ -O0 -g src\\main.cpp -o build/debug/unnamed_project.exe -static -lshlwapi"
    ∧ buildCommand (fun p => p == "icon.ico") { initialConfig with icon := "none.ico" } false
        ["src\\main.cpp"]
      = "g++ -O0 -g src\\main.cpp resource.o -o build/debug/unnamed_project.exe -static -lshlwapi"
    ∧ buildCommand (fun p => p == "app.ico") { initialConfig with icon := "app.ico" } false
        ["src\\main.cpp"]
      ≠ render (commandArgs (fun p => p == "app.ico") { initialConfig with icon := "app.ico" }
        false ["src\\main.cpp"]) := by
  have h1 : render (commandArgs (fun p => p == "app.ico")
      { initialConfig with icon := "app.ico" } false ["src\\main.cpp"])
      = "g++ -O0 -g src\\main.cpp resource.o -o build/debug/unnamed_project.exe -static -lshlwapi" := by
    rfl
  have h2 : buildCommand (fun p => p == "app.ico") { initialConfig with icon := "app.ico" }
      false ["src\\main.cpp"]
      = "g++ -O0 -g src\\main.cpp -o build/debug/unnamed_project.exe -static -lshlwapi" := by
    rfl
  refine ⟨⟨by decide, by decide⟩, h1, h2, by rfl, by rfl, ?_⟩
  rw [h1, h2]
  decide

/-- C10 (divergence): with icon set to `app.ico`, present while `icon.ico` is
absent, `buildProject` runs the resource step but the command has no
`resource.o`; with icon set to `none.ico`, absent while `icon.ico` is present,
the resource step is skipped but the command names `resource.o`. -/
theorem C10_resource_object_ignores_icon_path :
    resourceStepRuns (fun p => p == "app.ico") { initialConfig with icon := "app.ico" } = true
    ∧ buildCommand (fun p => p == "app.ico") { initialConfig with icon := "app.ico" } false
        ["src\\main.cpp"]
      = "g++ -O0 -g src\\main.cpp -o build/debug/unnamed_project.exe -static -lshlwapi"
    ∧ resourceStepRuns (fun p => p == "icon.ico") { initialConfig with icon := "none.ico" }
      = false
    ∧ buildCommand (fun p => p == "icon.ico") { initialConfig with icon := "none.ico" } false
        ["src\\main.cpp"]
      = "g++ -O0 -g src\\main.cpp resource.o -o build/debug/unnamed_project.exe -static -lshlwapi" :=
  ⟨by rfl, by rfl, by rfl, by rfl⟩

theorem buildCommand_lib_fileExists (f g : String → Bool) (config : TomlConfig)
    (isRelease : Bool) (sourceFiles : List String) (hlib : config.type = "lib") :
    buildCommand f config isRelease sourceFiles = buildCommand g config isRelease sourceFiles := by
  rw [buildCommand_eq_render, buildCommand_eq_render]
  simp [tailArgs, resourceArgs, hlib]

theorem systemCalls_append (a b : List Event) :
    systemCalls (a ++ b) = systemCalls a ++ systemCalls b := by
  simp [systemCalls, List.filterMap_append]

theorem errorLines_append (a b : List Event) :
    errorLines (a ++ b) = errorLines a ++ errorLines b := by
  simp [errorLines, List.filterMap_append]

theorem systemCalls_map_err (ws : List String) : systemCalls (ws.map Event.err) = [] := by
  induction ws with
  | nil => rfl
  | cons a as ih => simp [systemCalls]

theorem errorLines_map_err (ws : List String) : errorLines (ws.map Event.err) = ws := by
  induction ws with
  | nil => rfl
  | cons a as ih =>
    simp only [errorLines, List.map_cons, List.filterMap_cons] at ih ⊢
    rw [ih]

theorem crossCompileMessages_lib (config : TomlConfig) (hostPlatform : String)
    (hlib : config.type = "lib") :
    systemCalls (crossCompileMessages config hostPlatform) = []
    ∧ errorLines (crossCompileMessages config hostPlatform) = [] := by
  unfold crossCompileMessages
  by_cases h : config.platform = hostPlatform <;> simp [h, hlib, systemCalls, errorLines]

theorem compileLoop_first_failure {W : Type} (os : OS W) (config : TomlConfig)
    (isRelease : Bool) (buildPath : String) (status : String → Int)
    (hlib : config.type = "lib") (hsys : ∀ w cmd, (os.system w cmd).1 = status cmd) :
    ∀ (srcs : List String) (k : Nat) (src : String) (w : W),
      srcs[k]? = some src →
      (∀ s ∈ srcs.take k, status (compileCommand config isRelease s) = 0) →
      status (compileCommand config isRelease src) ≠ 0 →
      (compileLoop os config isRelease buildPath srcs w).2.2.1 = true
      ∧ systemCalls (compileLoop os config isRelease buildPath srcs w).2.2.2
          = (srcs.take (k + 1)).map (compileCommand config isRelease)
      ∧ errorLines (compileLoop os config isRelease buildPath srcs w).2.2.2
          = ["Error: Compilation failed for " ++ sourceFileName src] := by
  intro srcs
  induction srcs with
  | nil => intro k src w hk; simp at hk
  | cons a as ih =>
    intro k src w hk hbefore hfail
    have hcmd : buildCommand (os.fileExists w) config isRelease [a] ++ objectName a
        = compileCommand config isRelease a := by
      rw [compileCommand, buildCommand_lib_fileExists _ (fun _ => false) _ _ _ hlib]
    cases k with
    | zero =>
      simp only [List.getElem?_cons_zero, Option.some.injEq] at hk
      subst hk
      simp [compileLoop, hcmd, hsys, hfail, systemCalls, errorLines]
    | succ n =>
      simp only [List.getElem?_cons_succ] at hk
      have ha : status (compileCommand config isRelease a) = 0 :=
        hbefore a (by simp)
      have hrest : ∀ s ∈ as.take n, status (compileCommand config isRelease s) = 0 :=
        fun s hs => hbefore s (by simp [hs])
      obtain ⟨h1, h2, h3⟩ := ih n src (os.system w (compileCommand config isRelease a)).2
        hk hrest hfail
      simp [compileLoop, hcmd, hsys, ha, systemCalls, errorLines] at h1 h2 h3 ⊢
      exact ⟨h1, h2, h3⟩
theorem render_head (args : List String) : ∃ t : String, render args = "g++" ++ t := by
  have h : ∀ (l : List String) (init : String),
      ∃ t : String, l.foldl (fun acc a => acc ++ (" " ++ a)) init = init ++ t := by
    intro l
    induction l with
    | nil => intro init; exact ⟨"", by simp⟩
    | cons a as ih =>
      intro init
      obtain ⟨t, ht⟩ := ih (init ++ (" " ++ a))
      exact ⟨(" " ++ a) ++ t, by rw [List.foldl_cons, ht, String.append_assoc]⟩
  exact h args "g++"

theorem compileCommand_head (config : TomlConfig) (isRelease : Bool) (srcFile : String) :
    (compileCommand config isRelease srcFile).data.head? = some 'g' := by
  obtain ⟨t, ht⟩ := render_head
    (profileFlags (selectedProfile config isRelease) ++ modeFlags config.type config.platform
      ++ [srcFile] ++ tailArgs (fun _ => false) config isRelease)
  rw [compileCommand, buildCommand_eq_render, ht]
  simp [String.data_append]

/-- C11: in a static-library build whose sources are compiled by a toolchain
that answers by command, if the source at index `k` is the first whose compile
exits non-zero, then `buildProject` returns having run exactly the compile
commands of the sources at indices 0..k, one per source and in discovery
order; it never runs the archiver; and the one error it reports names the
file of source `k`. -/
theorem C11_lib_build_stops_at_first_failure {W : Type} (host : Host) (os : OS W) (w : W)
    (isRelease : Bool) (config : TomlConfig) (warnings : List String)
    (status : String → Int) (k : Nat) (src : String)
    (hfile : os.fileExists w "cclank.toml" = true)
    (hparse : parseToml (os.readLines w "cclank.toml") = Except.ok (config, warnings))
    (hlib : config.type = "lib")
    (hd1 : (os.createDirectory w "build").1 = true)
    (hd2 : (os.createDirectory (os.createDirectory w "build").2
      ("build/" ++ (if isRelease then "release" else "debug"))).1 = true)
    (hsys : ∀ w cmd, (os.system w cmd).1 = status cmd)
    (hk : (findCppFiles os w "src")[k]? = some src)
    (hbefore : ∀ s ∈ (findCppFiles os w "src").take k,
      status (compileCommand config isRelease s) = 0)
    (hfail : status (compileCommand config isRelease src) ≠ 0) :
    ∃ w1 log, buildProject host os isRelease w = Except.ok (w1, log)
      ∧ systemCalls log
          = ((findCppFiles os w "src").take (k + 1)).map (compileCommand config isRelease)
      ∧ (∀ cmd ∈ systemCalls log, ¬ "ar rcs ".data <+: cmd.data)
      ∧ errorLines log = warnings ++ ["Error: Compilation failed for " ++ sourceFileName src] := by
  have hne : findCppFiles os w "src" ≠ [] := by
    intro h; rw [h] at hk; simp at hk
  have hbin : ¬ config.type = "bin" := by rw [hlib]; decide
  obtain ⟨l1, l2, l3⟩ := compileLoop_first_failure os config isRelease
    ("build/" ++ (if isRelease then "release" else "debug")) status hlib hsys
    (findCppFiles os w "src") k src
    (os.createDirectory (os.createDirectory w "build").2
      ("build/" ++ (if isRelease then "release" else "debug"))).2 hk hbefore hfail
  obtain ⟨c1, c2⟩ := crossCompileMessages_lib config (getHostPlatform host) hlib
  generalize hloop : compileLoop os config isRelease
    ("build/" ++ (if isRelease then "release" else "debug")) (findCppFiles os w "src")
    (os.createDirectory (os.createDirectory w "build").2
      ("build/" ++ (if isRelease then "release" else "debug"))).2 = loop at l1 l2 l3
  have hb : ∃ w1, buildProject host os isRelease w = Except.ok (w1,
      (warnings.map Event.err
        ++ [Event.out ("Building " ++ config.name ++ " ("
              ++ (if isRelease then "release" else "debug") ++ " profile, "
              ++ config.type ++ " for " ++ config.platform ++ ")...")]
        ++ crossCompileMessages config (getHostPlatform host)
        ++ [Event.out ("Found " ++ toString (findCppFiles os w "src").length
              ++ " source file(s)")]
        ++ [Event.out "Compiling object files..."]) ++ loop.2.2.2) := by
    refine ⟨cleanupTemporaries os loop.1, ?_⟩
    simp [buildProject, hfile, hparse, hne, hd1, hd2, compileResource, compileStage, hlib,
      hloop, l1]
  obtain ⟨w1, hw1⟩ := hb
  refine ⟨w1, _, hw1, ?_, ?_, ?_⟩
  · simp only [systemCalls_append, systemCalls_map_err, c1, l2]
    rfl
  · simp only [systemCalls_append, systemCalls_map_err, c1, l2]
    intro cmd hcmd hpre
    have hcmd1 : cmd ∈ ((findCppFiles os w "src").take (k + 1)).map
        (compileCommand config isRelease) := by
      simpa [systemCalls] using hcmd
    obtain ⟨s, -, rfl⟩ := List.mem_map.1 hcmd1
    have hg := compileCommand_head config isRelease s
    obtain ⟨t, ht⟩ := hpre
    rw [← ht] at hg
    simp at hg
  · simp only [errorLines_append, errorLines_map_err, c2, l3]
    simp [errorLines]
/-- C11 witness: three sources, the second compile failing: `a.cpp` and `b.cpp`
are compiled, `c.cpp` is not, no archive is made, and the failing file named
is `b.cpp`. -/
theorem C11_lib_build_stops_at_first_failure_witness :
    ∃ w1 log, buildProject Host.windows threeSourceLib false () = Except.ok (w1, log)
      ∧ systemCalls log
          = ["g++ -O0 -g -c src\\a.cpp -o build/debug/a.o",
             "g++ -O0 -g -c src\\b.cpp -o build/debug/b.o"]
      ∧ (∀ cmd ∈ systemCalls log, ¬ "ar rcs ".data <+: cmd.data)
      ∧ errorLines log = ["Error: Compilation failed for b.cpp"] :=
  C11_lib_build_stops_at_first_failure Host.windows threeSourceLib () false
    { initialConfig with name := "demo", type := "lib" } []
    (fun cmd => if cmd = "g++ -O0 -g -c src\\b.cpp -o build/debug/b.o" then 1 else 0)
    1 "src\\b.cpp" rfl (by rfl) rfl rfl rfl (fun _ _ => rfl) (by rfl) (by decide) (by decide)

theorem runProject_accepted_prints {W : Type} (host : Host) (os : OS W) (w : W)
    (isRelease : Bool) (config : TomlConfig) (warnings : List String)
    (hfile : os.fileExists w "cclank.toml" = true)
    (hparse : parseToml (os.readLines w "cclank.toml") = Except.ok (config, warnings))
    (hbin : config.type = "bin") (hplat : config.platform = getHostPlatform host)
    (w1 : W) (log : List Event)
    (hres : runProject host os isRelease w = Except.ok (w1, log)) :
    ∃ line, Event.out line ∈ log := by
  unfold runProject at hres
  rw [if_neg (by simp [hfile])] at hres
  simp only [hparse] at hres
  rw [if_neg (by simp [hbin]), if_neg (by simp [hplat])] at hres
  generalize (if isRelease = true then "release" else "debug") = pn at hres
  split at hres
  · split at hres
    · cases hres
    · split at hres
      · simp only [Except.ok.injEq, Prod.mk.injEq] at hres
        exact ⟨"Executable not found, building first...", by rw [← hres.2]; simp⟩
      · simp only [Except.ok.injEq, Prod.mk.injEq] at hres
        exact ⟨"Executable not found, building first...", by rw [← hres.2]; simp⟩
  · simp only [Except.ok.injEq, Prod.mk.injEq] at hres
    refine ⟨"Running " ++ ("build\\" ++ pn ++ "\\"
      ++ getOutputFilename config.name config.type config.platform) ++ "...\n", ?_⟩
    rw [← hres.2]
    simp

theorem runProject_not_bin {W : Type} (host : Host) (os : OS W) (w : W)
    (isRelease : Bool) (config : TomlConfig) (warnings : List String)
    (hfile : os.fileExists w "cclank.toml" = true)
    (hparse : parseToml (os.readLines w "cclank.toml") = Except.ok (config, warnings))
    (hbin : config.type ≠ "bin") :
    runProject host os isRelease w = Except.ok (w, warnings.map Event.err ++
      [Event.err ("Error: Cannot run non-binary project (type = " ++ config.type ++ ")"),
       Event.err "Only projects with type = \"bin\" can be executed"]) := by
  unfold runProject
  rw [if_neg (by simp [hfile])]
  simp only [hparse]
  rw [if_pos hbin]

theorem runProject_not_host {W : Type} (host : Host) (os : OS W) (w : W)
    (isRelease : Bool) (config : TomlConfig) (warnings : List String)
    (hfile : os.fileExists w "cclank.toml" = true)
    (hparse : parseToml (os.readLines w "cclank.toml") = Except.ok (config, warnings))
    (hbin : config.type = "bin") (hplat : config.platform ≠ getHostPlatform host) :
    runProject host os isRelease w = Except.ok (w, warnings.map Event.err ++
      [Event.err ("Error: Cannot use " ++ squote ++ "run" ++ squote
         ++ " when the platform doesn" ++ squote ++ "t match the host platform"),
       Event.err ("Project platform: " ++ config.platform),
       Event.err ("Host platform: " ++ getHostPlatform host),
       Event.err ("Change platform to \"" ++ getHostPlatform host
         ++ "\" in cclank.toml to run on this system")]) := by
  unfold runProject
  rw [if_neg (by simp [hfile])]
  simp only [hparse]
  rw [if_neg (by simp [hbin]), if_pos hplat]

/-- C12 (amended): for every host and every loaded manifest, `runProject`
refuses to run, with no build and no execution, exactly when the type is not
bin or the declared platform is not the string `getHostPlatform` gives for the
host, which is win, lin or mac. -/
theorem C12_run_refused_iff_not_bin_or_not_host {W : Type} (host : Host) (os : OS W) (w : W)
    (isRelease : Bool) (config : TomlConfig) (warnings : List String)
    (hfile : os.fileExists w "cclank.toml" = true)
    (hparse : parseToml (os.readLines w "cclank.toml") = Except.ok (config, warnings)) :
    (refusesToRun w (runProject host os isRelease w)
      ↔ (config.type ≠ "bin" ∨ config.platform ≠ getHostPlatform host))
    ∧ getHostPlatform Host.windows = "win"
    ∧ getHostPlatform Host.linux = "lin"
    ∧ getHostPlatform Host.apple = "mac" := by
  refine ⟨⟨?_, ?_⟩, rfl, rfl, rfl⟩
  · intro href
    by_contra hacc
    simp only [not_or, not_not] at hacc
    obtain ⟨hbin, hplat⟩ := hacc
    obtain ⟨log, hres, hall⟩ := href
    obtain ⟨line, hline⟩ := runProject_accepted_prints host os w isRelease config warnings
      hfile hparse hbin hplat w log hres
    obtain ⟨l2, h2⟩ := hall _ hline
    cases h2
  · intro h
    by_cases hbin : config.type = "bin"
    · have hplat : config.platform ≠ getHostPlatform host := by
        rcases h with h | h
        · exact absurd hbin h
        · exact h
      refine ⟨_, runProject_not_host host os w isRelease config warnings hfile hparse hbin hplat,
        ?_⟩
      intro e he
      simp only [List.mem_append, List.mem_map, List.mem_cons, List.mem_singleton,
        List.not_mem_nil, or_false] at he
      rcases he with ⟨a, -, rfl⟩ | rfl | rfl | rfl | rfl <;> exact ⟨_, rfl⟩
    · refine ⟨_, runProject_not_bin host os w isRelease config warnings hfile hparse hbin, ?_⟩
      intro e he
      simp only [List.mem_append, List.mem_map, List.mem_cons, List.mem_singleton,
        List.not_mem_nil, or_false] at he
      rcases he with ⟨a, -, rfl⟩ | rfl | rfl <;> exact ⟨_, rfl⟩
/-- C12 witness: on a Linux host a manifest declaring platform mac is refused,
and a bin manifest declaring platform lin is not. -/
theorem C12_run_refused_iff_not_bin_or_not_host_witness :
    refusesToRun ()
      (runProject Host.linux
        (diskWith ["[package]", "platform = \"mac\""] ["main.cpp"] fun _ => 0) false ())
    ∧ ¬ refusesToRun ()
      (runProject Host.linux
        (diskWith ["[package]", "platform = \"lin\""] ["main.cpp"] fun _ => 0) false ()) :=
  ⟨(C12_run_refused_iff_not_bin_or_not_host Host.linux
      (diskWith ["[package]", "platform = \"mac\""] ["main.cpp"] fun _ => 0) () false
      { initialConfig with platform := "mac" } [] rfl (by rfl)).1.2 (Or.inr (by decide)),
   fun h => ((C12_run_refused_iff_not_bin_or_not_host Host.linux
      (diskWith ["[package]", "platform = \"lin\""] ["main.cpp"] fun _ => 0) () false
      { initialConfig with platform := "lin" } [] rfl (by rfl)).1.1 h).elim
        (fun h1 => h1 rfl) (fun h2 => h2 rfl)⟩

/-- C12 (counterexample): on a Linux host, a bin manifest that declares the
platform linux is refused: the host platform string is lin, not linux, and
`runProject` returns after the mismatch message with no build and no
execution. -/
theorem C12_counterexample :
    parseToml (some ["[package]", "platform = \"linux\""])
      = Except.ok ({ initialConfig with platform := "linux" }, [])
    ∧ initialConfig.type = "bin"
    ∧ runProject Host.linux
        (diskWith ["[package]", "platform = \"linux\""] ["main.cpp"] fun _ => 0) false ()
      = Except.ok ((),
          [Event.err ("Error: Cannot use " ++ squote ++ "run" ++ squote
             ++ " when the platform doesn" ++ squote ++ "t match the host platform"),
           Event.err "Project platform: linux",
           Event.err "Host platform: lin",
           Event.err "Change platform to \"lin\" in cclank.toml to run on this system"]) :=
  ⟨by rfl, rfl, by rfl⟩

end Cclank
